import Mathlib

/-!
Verification of the VRBeatMaker voice manager, sequencer clock, sequence
store, recorder and selection model, as a shallow embedding over `ℚ`
(audio-clock seconds resp. `performance.now()` milliseconds).

Sources embedded:
  * `src/hooks/useTonePad.js` — `noteToMidi`, `clamp01`, `atLeast`,
    `playMidiWith` (busy guard, envelope construction, click-safe teardown
    schedule, deferred busy-registry cleanup), `triggerNoteWith` parameter
    merging.
  * `src/packages/PlayBackRecorder/index.jsx` — `ensureSeq`,
    `deleteSelected`, `tickOnce`, `scheduleNext`/`startClock` drift-corrected
    clock.
  * `src/components/sceneCanvas/index.jsx` — the sequence-shape effect,
    `onRecordedNote`, the live synth snapshot.

JS numbers are modelled by `ℚ`; `Number.isFinite` guards are modelled by
`Option ℚ` (`none` = a non-finite / absent value).  MIDI pitches are `ℤ`.
The busy registry (a JS `Map` keyed by midi number) is a function
`ℤ → Option ℚ`.
-/

namespace VRBeat

/-- `clamp01` of `useTonePad.js`: `Math.max(0, Math.min(1, v))`. -/
def clamp01 (v : ℚ) : ℚ := max 0 (min 1 v)

/-- `atLeast` of `useTonePad.js`: `Number.isFinite(v) ? Math.max(m, v) : m`;
on `ℚ` every value is finite, a non-finite JS input is `none`. -/
def atLeast (v : Option ℚ) (m : ℚ) : ℚ :=
  match v with
  | some x => max m x
  | none => m

/-- The explicit parameter record `playMidiWith` consumes (the object built by
`triggerNoteWith` / `playMidi`): waveform plus the five numeric fields.  Note
that this record carries no reverb fields — `triggerNoteWith` does not copy
`reverbMix`/`reverbRoomSize` into it. -/
structure VoiceParams where
  waveform : String
  attack : ℚ
  decay : ℚ
  sustain : ℚ
  release : ℚ
  cleanupEps : ℚ
  deriving Repr, DecidableEq

/-- The `Tone.AmplitudeEnvelope` configuration a voice is constructed with. -/
structure Envelope where
  attack : ℚ
  decay : ℚ
  sustain : ℚ
  release : ℚ
  deriving Repr, DecidableEq

/-- The envelope constructed in `playMidiWith`:
`attack: atLeast(params.attack, 0.001), decay: atLeast(params.decay, 0.01),
sustain: clamp01(params.sustain), release: atLeast(params.release, 0.02)`. -/
def envelopeOf (p : VoiceParams) : Envelope :=
  { attack := atLeast (some p.attack) 0.001
    decay := atLeast (some p.decay) 0.01
    sustain := clamp01 p.sustain
    release := atLeast (some p.release) 0.02 }

/-- One started voice: its nodes' configuration and every absolute time
`playMidiWith` schedules for it.  `gainZeroAt` is `microRampEnd` (the moment
`voiceGain.gain` linearly reaches `gainFinal = 0`), `oscStopAt` is
`osc.stop`'s argument, `disposeAt` the absolute time of the deferred
disconnect/dispose callback (`now + cleanupDelayMs/1000`). -/
structure Voice where
  midi : ℤ
  waveform : String
  env : Envelope
  startAt : ℚ
  attackAt : ℚ
  releaseAt : ℚ
  stopAt : ℚ
  gainZeroAt : ℚ
  gainFinal : ℚ
  oscStopAt : ℚ
  disposeAt : ℚ
  deriving Repr, DecidableEq

/-- The busy registry: `busyUntilRef.current`, a `Map` midi → absolute stop
time. -/
def BusyMap : Type := ℤ → Option ℚ

/-- `busyUntilRef.current.set(midi, stopAt)`. -/
def setBusy (b : BusyMap) (k : ℤ) (v : ℚ) : BusyMap :=
  fun k' => if k' = k then some v else b k'

/-- `busyUntilRef.current.delete(midi)`. -/
def deleteBusy (b : BusyMap) (k : ℤ) : BusyMap :=
  fun k' => if k' = k then none else b k'

/-- The outcome of one `playMidiWith` call: its returned boolean, the voice
whose nodes it created (`none` when it rejected before constructing any
node), and the busy registry after the call. -/
structure TriggerResult where
  ok : Bool
  voice : Option Voice
  busy : BusyMap

/-- The busy guard of `playMidiWith`:
`existingStop = busy.get(midi) ?? -Infinity; now < existingStop - 1e-4`. -/
def busyRejects (b : BusyMap) (m : ℤ) (now : ℚ) : Bool :=
  match b m with
  | none => false
  | some s => decide (now < s - 1/10000)

/-- `playMidiWith(params, midi, durationSec)` of `useTonePad.js`.  `fxReady`
models `freeverbRef.current` being non-null (the shared FX chain built);
`midi = none` models a `null` pitch; `durationSec = none` models an
absent/undefined duration (`durationSec ?? 0.5`).  On success the constructed
voice records the full click-safe teardown schedule:
`stopAt = now + dur + rel + tail`, `microRampEnd = stopAt + 0.012`
(linear ramp of the per-voice gain to exactly 0), `oscStopTime =
microRampEnd + 0.01`, and the deferred cleanup at
`now + (oscStopTime - now + 0.06)`. -/
def playMidiWith (fxReady : Bool) (b : BusyMap) (now : ℚ) (p : VoiceParams)
    (midi : Option ℤ) (durationSec : Option ℚ) : TriggerResult :=
  match midi with
  | none => ⟨false, none, b⟩
  | some m =>
    if !fxReady then ⟨false, none, b⟩
    else if busyRejects b m now then ⟨false, none, b⟩
    else
      let env := envelopeOf p
      let dur := atLeast (some (durationSec.getD 0.5)) 0.01
      let rel := env.release
      let tail := max 0 p.cleanupEps
      let stopAt := now + dur + rel + tail
      let microRampEnd := stopAt + 0.012
      let oscStopTime := microRampEnd + 0.01
      let v : Voice :=
        { midi := m
          waveform := p.waveform
          env := env
          startAt := now
          attackAt := now
          releaseAt := now + dur
          stopAt := stopAt
          gainZeroAt := microRampEnd
          gainFinal := 0
          oscStopAt := oscStopTime
          disposeAt := now + (oscStopTime - now + 0.06) }
      ⟨true, some v, setBusy b m stopAt⟩

/-- The deferred cleanup callback's effect on the busy registry:
`if ((busyUntilRef.current.get(midi) ?? -Infinity) <= stopAt + 1e-6)
 busyUntilRef.current.delete(midi)`. -/
def cleanupBusy (b : BusyMap) (m : ℤ) (stopAt : ℚ) : BusyMap :=
  match b m with
  | none => deleteBusy b m
  | some v => if v ≤ stopAt + 1/1000000 then deleteBusy b m else b

/-- The empty busy registry. -/
def emptyBusy : BusyMap := fun _ => none

/-! ### `noteToMidi` (`useTonePad.js`)

`name.match(/^([A-G]#?|[A-G]b)(-?\d+)$/i)` followed by
`p[m[1].toUpperCase()]` and `12 * (oct + 1) + semis`.  The lookup table `p`
has no key for an upper-cased flat spelling (`"DB"`, `"EB"`, …) nor for
`"E#"`/`"B#"`, so those regex-accepted names produce `undefined` semitones
and hence a `NaN` midi value; `MidiResult.nanv` records that outcome
(`MidiResult.nullv` is a failed regex match, returning `null`). -/

inductive MidiResult where
  | nullv : MidiResult
  | nanv : MidiResult
  | num : ℤ → MidiResult
  deriving Repr, DecidableEq

/-- Value of a digit list read in base 10 (`parseInt(m[2], 10)` on `\d+`). -/
def digitsVal (ds : List Char) : ℕ :=
  ds.foldl (fun a c => 10 * a + (c.toNat - 48)) 0

/-- The `(-?\d+)$` group: an optional minus sign then one or more digits,
consuming the whole remaining input. -/
def parseIntPart : List Char → Option ℤ
  | '-' :: ds => if !ds.isEmpty && ds.all Char.isDigit then some (-(digitsVal ds : ℤ)) else none
  | ds => if !ds.isEmpty && ds.all Char.isDigit then some ((digitsVal ds : ℤ)) else none

/-- Semitone of a natural letter under `p[letter.toUpperCase()]`
(`[A-G]` matched case-insensitively). -/
def naturalSemis (c : Char) : Option ℤ :=
  match c.toUpper with
  | 'C' => some 0
  | 'D' => some 2
  | 'E' => some 4
  | 'F' => some 5
  | 'G' => some 7
  | 'A' => some 9
  | 'B' => some 11
  | _ => none

/-- Semitone of a sharpened letter under `p[(letter + "#").toUpperCase()]`:
the table has `C#`, `D#`, `F#`, `G#`, `A#` but no `E#`/`B#` (undefined). -/
def sharpSemis (c : Char) : Option ℤ :=
  match c.toUpper with
  | 'C' => some 1
  | 'D' => some 3
  | 'F' => some 6
  | 'G' => some 8
  | 'A' => some 10
  | _ => none

/-- `noteToMidi` of `useTonePad.js`.  The regex alternation
`([A-G]#?|[A-G]b)` first tries the letter with an optional `#`; only when the
octave part then fails does it fall back to letter-plus-`b` (whose upper-cased
key misses the table, yielding `NaN`). -/
def noteToMidi (s : String) : MidiResult :=
  match s.data with
  | [] => .nullv
  | c :: rest =>
    match naturalSemis c with
    | none => .nullv
    | some semi =>
      match rest with
      | '#' :: rest2 =>
        match parseIntPart rest2 with
        | some oct =>
          match sharpSemis c with
          | some semiSharp => .num (12 * (oct + 1) + semiSharp)
          | none => .nanv
        | none => .nullv
      | c2 :: rest2 =>
        if c2 = 'b' ∨ c2 = 'B' then
          match parseIntPart rest2 with
          | some _ => .nanv
          | none => .nullv
        else
          match parseIntPart (c2 :: rest2) with
          | some oct => .num (12 * (oct + 1) + semi)
          | none => .nullv
      | [] => .nullv

/-! ### Synth parameter records and `triggerNoteWith` merging -/

/-- A full synth parameter record: the live hook props of `useTonePad`
(resp. the snapshot stored into a recorded event by `onRecordedNote`). -/
structure SynthParams where
  waveform : String
  attack : ℚ
  decay : ℚ
  sustain : ℚ
  release : ℚ
  reverbMix : ℚ
  reverbRoomSize : ℚ
  cleanupEps : ℚ
  deriving Repr, DecidableEq

/-- The parameter object handed to `triggerNoteWith`: each field may be
absent (`undefined`/`null`), in which case `??` falls back to the hook's live
value.  `reverbMix`/`reverbRoomSize` may be present on the object (recorded
snapshots carry them) but `triggerNoteWith` never reads them. -/
structure PartialSynth where
  waveform : Option String
  attack : Option ℚ
  decay : Option ℚ
  sustain : Option ℚ
  release : Option ℚ
  reverbMix : Option ℚ
  reverbRoomSize : Option ℚ
  cleanupEps : Option ℚ
  deriving Repr, DecidableEq

/-- A stored snapshot viewed as the JS object passed to `triggerNoteWith`
(every field present). -/
def toPartial (s : SynthParams) : PartialSynth :=
  { waveform := some s.waveform
    attack := some s.attack
    decay := some s.decay
    sustain := some s.sustain
    release := some s.release
    reverbMix := some s.reverbMix
    reverbRoomSize := some s.reverbRoomSize
    cleanupEps := some s.cleanupEps }

/-- The explicit parameter record `triggerNoteWith` builds and passes to
`playMidiWith`:
`{ waveform: params.waveform ?? waveform, attack: params.attack ?? attack,
decay, sustain, release, cleanupEps: params.cleanupEps ?? cleanupEps }` —
six fields only; no reverb field is forwarded. -/
def mergeTriggerParams (live : SynthParams) (p : PartialSynth) : VoiceParams :=
  { waveform := p.waveform.getD live.waveform
    attack := p.attack.getD live.attack
    decay := p.decay.getD live.decay
    sustain := p.sustain.getD live.sustain
    release := p.release.getD live.release
    cleanupEps := p.cleanupEps.getD live.cleanupEps }

/-- The shared Freeverb's wet mix: the `useEffect` on `[reverbMix]` sets
`f.wet.value = clamp01(reverbMix)` from the hook's *live* prop; every voice's
`voiceGain` connects to this shared instance and `playMidiWith` never touches
it per voice. -/
def fxWet (live : SynthParams) : ℚ := clamp01 live.reverbMix

/-- The shared Freeverb's room size, likewise live
(`f.roomSize.value = clamp01(reverbRoomSize)`). -/
def fxRoomSize (live : SynthParams) : ℚ := clamp01 live.reverbRoomSize

/-! ### Sequence store (`PlayBackRecorder/index.jsx`, `sceneCanvas/index.jsx`) -/

/-- One recorded note: `{ midi, duration, synth: {...} }`.  `midi = none`
models a non-number `midi` field, `duration = none` a non-finite one,
`synth = none` an absent snapshot. -/
structure NoteEvent where
  midi : Option ℤ
  duration : Option ℚ
  synth : Option SynthParams
  deriving Repr, DecidableEq

/-- A slot: an ordered list of note events. -/
abbrev Slot := List NoteEvent

/-- A track: its list of slots. -/
abbrev SeqTrack := List Slot

/-- A sequence value whose shape is already known to be array-of-arrays. -/
abbrev Seq := List SeqTrack

/-- A possibly-malformed track: `none` is a non-array value. -/
abbrev RawTrack := Option SeqTrack

/-- A possibly-malformed sequence: `none` is a non-array value; each element
may itself be a non-array. -/
abbrev RawSeq := Option (List RawTrack)

/-- `Array.from({length: 5}, () => Array.from({length: 16}, () => []))`. -/
def makeEmptySeq : Seq := List.replicate 5 (List.replicate 16 [])

/-- A well-shaped sequence viewed as a raw value. -/
def toRaw (s : Seq) : RawSeq := some (s.map some)

/-- The validity test of `ensureSeq`:
`Array.isArray(seq) && seq.length === 5 &&
 seq.every(t => Array.isArray(t) && t.length === 16)`. -/
def seqShapeOk (raw : RawSeq) : Bool :=
  match raw with
  | none => false
  | some ts =>
    ts.length == 5 && ts.all (fun t =>
      match t with
      | some sl => sl.length == 16
      | none => false)

/-- `ensureSeq` of `PlayBackRecorder`: return the input unchanged when its
shape passes the test above, else a freshly constructed empty 5×16 grid. -/
def ensureSeq (raw : RawSeq) : Seq :=
  if seqShapeOk raw then (raw.getD []).map (fun t => t.getD []) else makeEmptySeq

/-- The shape-ensuring effect of `SceneCanvas`:
`setSequence(prev => (Array.isArray(prev) && prev.length === TRACKS ? prev :
makeEmptySeq()))` — it inspects only the top level. -/
def sceneEnsureShape (raw : RawSeq) : RawSeq :=
  match raw with
  | some ts => if ts.length == 5 then some ts else toRaw makeEmptySeq
  | none => toRaw makeEmptySeq

/-- `Math.min(b, Math.max(a, v))` on integer-valued state. -/
def clampInt (v lo hi : ℤ) : ℤ := min hi (max lo v)

/-- `base[t][s] = v` on a copied sequence (in-range positional write; an
out-of-range `t`/`s` leaves the list unchanged, where JS would throw resp.
extend the array — the dials only produce `t ∈ [0,4]`, `s ∈ [0,15]`). -/
def writeSlot (seq : Seq) (t s : ℕ) (v : Slot) : Seq :=
  seq.set t ((seq.getD t []).set s v)

/-- `targets.forEach(s => { base[t][s] = [] })`: sequential clearing of the
selected slots of track `t`.  A negative selected index would set a
non-index property in JS, leaving every slot unchanged, hence the `0 ≤ s`
guard. -/
def clearTargets (base : Seq) (t : ℕ) (targets : List ℤ) : Seq :=
  targets.foldl (fun sq s => if 0 ≤ s then writeSlot sq t s.toNat [] else sq) base

/-- `deleteSelected` of `PlayBackRecorder`.  Returns the sequence state after
the call and the call's JS return value (`none` = `undefined`; note both the
rejected and the accepted path return `undefined` — there is no rejection
signal and nothing is logged). -/
def deleteSelected (playing : Bool) (raw : RawSeq) (selectedTrack : ℤ)
    (selectedSlots : List ℤ) : RawSeq × Option Unit :=
  if playing then (raw, none)
  else
    let base := ensureSeq raw
    let t := (clampInt selectedTrack 0 4).toNat
    let targets := if selectedSlots.isEmpty then [0] else selectedSlots
    (toRaw (clearTargets base t targets), none)

/-! ### Sequencer clock (`PlayBackRecorder/index.jsx`) -/

/-- One per-step trigger call fanned out by the clock: either
`triggerNoteWith(ev.synth, midi, evDur)` or `triggerNote(midi, evDur)`. -/
inductive TrigCall where
  | withParams : SynthParams → ℤ → ℚ → TrigCall
  | plain : ℤ → ℚ → TrigCall
  deriving Repr, DecidableEq

/-- The triggers fired for one slot's event list inside `tickOnce`: events
whose `midi` is not a number are skipped; `evDur` falls back to the step
duration when `ev.duration` is not finite; events with a `synth` snapshot go
through `triggerNoteWith`, the rest through `triggerNote`. -/
def slotCalls (stepSec : ℚ) (events : Slot) : List TrigCall :=
  events.filterMap (fun ev =>
    ev.midi.map (fun m =>
      let evDur := ev.duration.getD stepSec
      match ev.synth with
      | some sp => TrigCall.withParams sp m evDur
      | none => TrigCall.plain m evDur))

/-- `tickOnce`: reads the playhead slot of each of the 5 tracks, skipping
muted ones (`if (mutes?.[t]) continue`), fans out the trigger calls, then
advances the step to `(s + 1) % 16`.  `stepSec = Math.max(0.03,
durRef.current ?? 0.5)`. -/
def tickOnce (seq : Seq) (mutes : List Bool) (recDuration : Option ℚ)
    (s : ℕ) : List TrigCall × ℕ :=
  let stepSec := max 0.03 (recDuration.getD 0.5)
  let calls := (List.range 5).flatMap (fun t =>
    if mutes.getD t false then []
    else slotCalls stepSec ((seq.getD t []).getD s []))
  (calls, (s + 1) % 16)

/-- `const stepMs = Math.max(30, (durRef.current ?? 0.5) * 1000)`. -/
def stepMsOf (recDuration : Option ℚ) : ℚ := max 30 (recDuration.getD 0.5 * 1000)

/-- The `nextTickAt` update of `scheduleNext`:
`if (!nextTickAtRef.current) nextTickAtRef.current = now + stepMs;
 else nextTickAtRef.current += stepMs` (a zero value is falsy and re-baselines). -/
def nextTickUpdate (nextTickAt now stepMs : ℚ) : ℚ :=
  if nextTickAt = 0 then now + stepMs else nextTickAt + stepMs

/-- `const delay = Math.max(0, nextTickAtRef.current - now)`. -/
def delayOf (nextTickAt now : ℚ) : ℚ := max 0 (nextTickAt - now)

/-- The value of `nextTickAtRef.current` after a run of `scheduleNext` calls,
one per element of `nows` (each element the `performance.now()` observed by
that call).  `startClock` resets the ref to `0` before the first call. -/
def scheduleRun (stepMs : ℚ) : ℚ → List ℚ → ℚ
  | t, [] => t
  | t, now :: rest => scheduleRun stepMs (nextTickUpdate t now stepMs) rest

/-! ### Recorder (`sceneCanvas/index.jsx`) -/

/-- The `SceneCanvas` live synth state: the eight snapshot fields plus the
`duration` default and the `octave` offset (unused by the recorder).
`duration`/`cleanupEps` may be absent (`?? 0.25` resp. `?? 0.03`). -/
structure SceneSynth where
  waveform : String
  attack : ℚ
  decay : ℚ
  sustain : ℚ
  release : ℚ
  reverbMix : ℚ
  reverbRoomSize : ℚ
  octave : ℤ
  duration : Option ℚ
  cleanupEps : Option ℚ
  deriving Repr, DecidableEq

/-- The snapshot `onRecordedNote` writes into the note event:
waveform, ADSR, the two reverb fields and `cleanupEps ?? 0.03`. -/
def snapshotOf (sc : SceneSynth) : SynthParams :=
  { waveform := sc.waveform
    attack := sc.attack
    decay := sc.decay
    sustain := sc.sustain
    release := sc.release
    reverbMix := sc.reverbMix
    reverbRoomSize := sc.reverbRoomSize
    cleanupEps := sc.cleanupEps.getD 0.03 }

/-- `finiteOr(val, fallback)` of `sceneCanvas`. -/
def finiteOr (v : Option ℚ) (fallback : ℚ) : ℚ := v.getD fallback

/-- The recorder-facing part of the `SceneCanvas` state. -/
structure RecState where
  recording : Bool
  sequence : Seq
  selectedTrack : ℤ
  selectedSlots : List ℤ
  synth : SceneSynth
  recDuration : Option ℚ
  deriving Repr, DecidableEq

/-- `onRecordedNote` of `SceneCanvas`.  A non-finite `evt.midi` makes
`(Number.isFinite(evt.midi) && evt.midi)` the value `false`, which `??`
keeps (it only skips `null`/`undefined`), and the subsequent
`Number.isFinite(midi)` bail-out fires — so capture happens exactly when
`evt.midi` is a finite number.  On capture the slot at the clamped
`(selectedTrack, selectedSlots[0])` is overwritten with a one-element list
and the selection advances to `[(s0 + 1) % 16]` (JS `%` is truncated
division's remainder, `Int.tmod`). -/
def onRecordedNote (st : RecState) (evtMidi : Option ℤ) (evtDuration : Option ℚ) :
    RecState :=
  if !st.recording then st
  else
    match evtMidi with
    | none => st
    | some m =>
      let dur := finiteOr evtDuration (finiteOr st.recDuration (st.synth.duration.getD 0.25))
      let safeDur := max 0.01 dur
      let t := (clampInt st.selectedTrack 0 4).toNat
      let s0 := st.selectedSlots.headD 0
      let s := (clampInt s0 0 15).toNat
      let ev : NoteEvent :=
        { midi := some m, duration := some safeDur, synth := some (snapshotOf st.synth) }
      { st with
        sequence := writeSlot st.sequence t s [ev]
        selectedSlots := [Int.tmod (s0 + 1) 16] }

/-! ## Theorems -/

/-- Parameters of the worked example of the spec: release 0.2, cleanupEps
0.03 (the remaining fields are the hook defaults). -/
def paramsEx : VoiceParams :=
  { waveform := "sine", attack := 0.02, decay := 0.12, sustain := 0.8
    release := 0.2, cleanupEps := 0.03 }

/-- C1: whenever the busy registry holds a stop time for the pitch and the
trigger arrives at `now < stopAt − 1e-4`, `playMidiWith` returns false; and
in the worked example, `trigger(60, 0.25, ·)` at t=0 with release 0.2 and
cleanupEps 0.03 registers `stopAt = 0.48`, a second trigger of pitch 60 at
t=0.3 returns false, and one at t=0.5 returns true. -/
theorem busy_guard_debounce :
    (∀ (fx : Bool) (b : BusyMap) (now : ℚ) (p : VoiceParams) (m : ℤ) (stopAt : ℚ)
        (d : Option ℚ), b m = some stopAt → now < stopAt - 1/10000 →
        (playMidiWith fx b now p (some m) d).ok = false) ∧
    ((playMidiWith true emptyBusy 0 paramsEx (some 60) (some 0.25)).busy 60 =
        some 0.48 ∧
      (playMidiWith true (playMidiWith true emptyBusy 0 paramsEx (some 60) (some 0.25)).busy
          0.3 paramsEx (some 60) (some 0.25)).ok = false ∧
      (playMidiWith true (playMidiWith true emptyBusy 0 paramsEx (some 60) (some 0.25)).busy
          0.5 paramsEx (some 60) (some 0.25)).ok = true) := by
  refine ⟨?_, ?_⟩
  · intro fx b now p m stopAt d hb hlt
    cases fx with
    | false => rfl
    | true =>
      have hr : busyRejects b m now = true := by simpa [busyRejects, hb] using hlt
      simp [playMidiWith, hr]
  · refine ⟨?_, ?_, ?_⟩ <;>
      norm_num [playMidiWith, busyRejects, emptyBusy, envelopeOf, atLeast, clamp01,
        paramsEx, setBusy]

/-- C2: every voice started by a successful trigger schedules its teardown in
strict temporal order — the per-voice gain ramps linearly to exactly 0 at
`gainZeroAt`, strictly after `stopAt`; the oscillator stop time is strictly
after `gainZeroAt`; the deferred disconnect/dispose is strictly after the
oscillator stop — hence the gain reaches exactly 0 before the
oscillator-stop timestamp. -/
theorem teardown_strict_order (fx : Bool) (b : BusyMap) (now : ℚ)
    (p : VoiceParams) (midi : Option ℤ) (d : Option ℚ) (v : Voice)
    (h : (playMidiWith fx b now p midi d).voice = some v) :
    v.stopAt < v.gainZeroAt ∧ v.gainZeroAt < v.oscStopAt ∧
      v.oscStopAt < v.disposeAt ∧ v.gainFinal = 0 := by
  cases midi with
  | none => simp [playMidiWith] at h
  | some m =>
    cases fx with
    | false => simp [playMidiWith] at h
    | true =>
      rw [playMidiWith] at h
      by_cases hg : busyRejects b m now
      · simp [hg] at h
      · simp only [hg, Bool.not_true, Bool.false_eq_true, if_false, if_true,
          Bool.not_false, ite_false, ite_true] at h
        simp only [Option.some.injEq] at h
        subst h
        refine ⟨by norm_num, by norm_num, by linarith, rfl⟩

/-- The voice the example trigger constructs (used to instantiate C2 at a
concrete input). -/
def voiceEx : Voice :=
  { midi := 60, waveform := "sine"
    env := { attack := 1/50, decay := 3/25, sustain := 4/5, release := 1/5 }
    startAt := 0, attackAt := 0, releaseAt := 1/4, stopAt := 12/25
    gainZeroAt := 123/250, gainFinal := 0, oscStopAt := 251/500
    disposeAt := 281/500 }

/-- Witness for C2 at the concrete example trigger. -/
theorem teardown_strict_order_witness :
    voiceEx.stopAt < voiceEx.gainZeroAt ∧ voiceEx.gainZeroAt < voiceEx.oscStopAt ∧
      voiceEx.oscStopAt < voiceEx.disposeAt ∧ voiceEx.gainFinal = 0 :=
  teardown_strict_order true emptyBusy 0 paramsEx (some 60) (some 0.25) voiceEx
    (by norm_num [playMidiWith, busyRejects, emptyBusy, envelopeOf, atLeast, clamp01,
      paramsEx, voiceEx])

/-- Mapping back each track of a valid raw sequence reproduces the raw value:
no element is `none`, so `getD` then `some` is the identity. -/
theorem map_some_getD {α : Type} (d : α) :
    ∀ l : List (Option α), (∀ t ∈ l, t ≠ none) →
      l.map (fun t => some (t.getD d)) = l := by
  intro l
  induction l with
  | nil => intro _; rfl
  | cons a as ih =>
    intro h
    cases a with
    | none => exact absurd rfl (h none (List.mem_cons_self none as))
    | some x =>
      simp only [List.map_cons, Option.getD_some, List.cons.injEq, true_and]
      exact ih (fun t ht => h t (List.mem_cons_of_mem _ ht))

/-- `ensureSeq` always returns five tracks. -/
theorem ensureSeq_length (raw : RawSeq) : (ensureSeq raw).length = 5 := by
  unfold ensureSeq
  by_cases h : seqShapeOk raw = true
  · rw [if_pos h]
    cases raw with
    | none => exact absurd h (by simp [seqShapeOk])
    | some ts =>
      have h5 : ts.length = 5 := by
        have := (Bool.and_eq_true _ _).mp h |>.1
        simpa using this
      simpa using h5
  · rw [if_neg h]; rfl

/-- Every track `ensureSeq` returns has sixteen slots. -/
theorem ensureSeq_track_length (raw : RawSeq) :
    ∀ tr ∈ ensureSeq raw, tr.length = 16 := by
  unfold ensureSeq
  by_cases h : seqShapeOk raw = true
  · rw [if_pos h]
    cases raw with
    | none => exact absurd h (by simp [seqShapeOk])
    | some ts =>
      intro tr htr
      simp only [Option.getD_some, List.mem_map] at htr
      obtain ⟨t, htmem, rfl⟩ := htr
      have hall := (Bool.and_eq_true _ _).mp h |>.2
      rw [List.all_eq_true] at hall
      have := hall t htmem
      cases t with
      | none => simp at this
      | some sl => simpa using this
  · rw [if_neg h]
    intro tr htr
    have := List.eq_of_mem_replicate htr
    subst this
    simp

/-- `ensureSeq` either keeps the input unchanged or replaces it wholesale by
the fresh empty grid. -/
theorem ensureSeq_id_or_empty (raw : RawSeq) :
    ensureSeq raw = makeEmptySeq ∨ toRaw (ensureSeq raw) = raw := by
  unfold ensureSeq
  by_cases h : seqShapeOk raw = true
  · rw [if_pos h]
    cases raw with
    | none => exact absurd h (by simp [seqShapeOk])
    | some ts =>
      right
      have hall := (Bool.and_eq_true _ _).mp h |>.2
      rw [List.all_eq_true] at hall
      have hns : ∀ t ∈ ts, t ≠ none := by
        intro t ht hnone
        subst hnone
        simpa using hall none ht
      simp only [toRaw, Option.getD_some, List.map_map, Option.some.injEq]
      exact map_some_getD [] ts hns
  · rw [if_neg h]; left; rfl

/-- A 5-track sequence whose tracks are empty arrays (0 slots each, not 16):
malformed below the top level. -/
def fiveEmptyTracks : RawSeq := some (List.replicate 5 (some []))

/-- C3 counterexample: the shape-ensuring recover step of `SceneCanvas`
checks only the top-level track count, so a sequence of 5 zero-length tracks
passes through unchanged and the state after the recover operation is not of
shape 5×16, contradicting the claim that the shape invariant holds after any
store/recover operation. -/
theorem scene_shape_check_passthrough :
    sceneEnsureShape fiveEmptyTracks = fiveEmptyTracks ∧
      seqShapeOk fiveEmptyTracks = false ∧
      seqShapeOk (sceneEnsureShape fiveEmptyTracks) = false := by
  refine ⟨rfl, rfl, rfl⟩

/-- C3 amended: `ensureSeq` (the store/recover normalisation of
`PlayBackRecorder`) always yields exactly 5 tracks of exactly 16 slots and
either keeps a well-shaped input unchanged or replaces a malformed one
wholesale by the fresh empty grid — but the shape-ensuring effect of
`SceneCanvas` validates only the top-level length, so a 5-track input with
malformed tracks is passed through unrepaired. -/
theorem ensureSeq_shape_invariant :
    (∀ raw : RawSeq, (ensureSeq raw).length = 5 ∧
      (∀ tr ∈ ensureSeq raw, tr.length = 16) ∧
      (ensureSeq raw = makeEmptySeq ∨ toRaw (ensureSeq raw) = raw)) ∧
    (∀ ts : List RawTrack, ts.length = 5 → sceneEnsureShape (some ts) = some ts) := by
  constructor
  · intro raw
    exact ⟨ensureSeq_length raw, ensureSeq_track_length raw, ensureSeq_id_or_empty raw⟩
  · intro ts h5
    simp [sceneEnsureShape, h5]

/-- The step period is at least 30 ms. -/
theorem stepMsOf_ge (recDuration : Option ℚ) : 30 ≤ stepMsOf recDuration :=
  le_max_left 30 _

/-- Once `nextTickAt` is positive it never re-baselines: each further
`scheduleNext` call adds exactly one step period, independent of the `now` it
observes. -/
theorem scheduleRun_of_pos (stepMs : ℚ) (hs : 0 < stepMs) :
    ∀ (nows : List ℚ) (t : ℚ), 0 < t →
      scheduleRun stepMs t nows = t + nows.length * stepMs := by
  intro nows
  induction nows with
  | nil => intro t _; simp [scheduleRun]
  | cons n rest ih =>
    intro t ht
    rw [scheduleRun, nextTickUpdate, if_neg (ne_of_gt ht)]
    rw [ih (t + stepMs) (by linarith)]
    simp only [List.length_cons]
    push_cast
    ring

/-- C4: with a constant step duration, the clock advances `nextTickAt` by the
step period (not by `now` plus the period) and waits `max(0, nextTickAt −
now)`; starting from the reset ref (0), after the baseline call at `now0` and
N further calls the scheduled time is exactly `now0 + (1 + N) ·
stepMs`, whatever `now` values the later calls observe (jitter causes no
cumulative drift, and on `ℚ` the equality is exact). -/
theorem clock_no_drift (recDuration : Option ℚ) (now0 : ℚ) (nows : List ℚ)
    (h0 : 0 ≤ now0) :
    scheduleRun (stepMsOf recDuration) 0 (now0 :: nows) =
      now0 + (1 + nows.length) * stepMsOf recDuration ∧
    (∀ t now : ℚ, 0 ≤ delayOf t now) := by
  constructor
  · have hs : 0 < stepMsOf recDuration := lt_of_lt_of_le (by norm_num) (stepMsOf_ge _)
    rw [scheduleRun, nextTickUpdate, if_pos rfl]
    rw [scheduleRun_of_pos _ hs nows (now0 + stepMsOf recDuration) (by linarith)]
    ring
  · intro t now
    exact le_max_left 0 _

/-- Witness for C4: step duration 0.5 s (stepMs 500), baseline call at 100 ms
and two late jittery calls; the third scheduled tick lands exactly at 1600. -/
theorem clock_no_drift_witness :
    scheduleRun (stepMsOf (some 0.5)) 0 (100 :: [620, 1090]) =
      100 + (1 + ([620, 1090] : List ℚ).length) * stepMsOf (some 0.5) ∧
    (∀ t now : ℚ, 0 ≤ delayOf t now) :=
  clock_no_drift (some 0.5) 100 [620, 1090] (by norm_num)

/-- A snapshot as recorded into a note event: high reverb wet (0.9). -/
def storedSnapshotEx : SynthParams :=
  { waveform := "square", attack := 0.05, decay := 0.1, sustain := 0.5
    release := 0.3, reverbMix := 0.9, reverbRoomSize := 0.7, cleanupEps := 0.03 }

/-- The live synth parameters at playback time: low reverb wet (0.1). -/
def liveSynthEx : SynthParams :=
  { waveform := "sine", attack := 0.02, decay := 0.12, sustain := 0.8
    release := 0.25, reverbMix := 0.1, reverbRoomSize := 0.2, cleanupEps := 0.03 }

/-- C5 counterexample: the parameter record `triggerNoteWith` forwards to
`playMidiWith` for a recorded event is only the six envelope/oscillator
fields — it is not the full eight-field snapshot — and the reverb actually
heard during playback is the shared chain's live wet mix (0.1 here), not the
snapshot's recorded value (0.9): the playback sound does depend on live
global synth parameters. -/
theorem playback_reverb_is_live :
    mergeTriggerParams liveSynthEx (toPartial storedSnapshotEx) =
      { waveform := "square", attack := 0.05, decay := 0.1, sustain := 0.5
        release := 0.3, cleanupEps := 0.03 } ∧
    fxWet liveSynthEx = 0.1 ∧ storedSnapshotEx.reverbMix = 0.9 ∧
    fxWet liveSynthEx ≠ storedSnapshotEx.reverbMix := by
  refine ⟨rfl, ?_, rfl, ?_⟩ <;>
    norm_num [fxWet, clamp01, liveSynthEx, storedSnapshotEx]

/-- C5 amended: for every event in the slot under the playhead of an unmuted
track, the tick fires `triggerNoteWith` with the event's own stored snapshot,
pitch and duration, and the six parameters that shape the voice (waveform,
attack, decay, sustain, release, cleanupEps) are taken verbatim from that
snapshot, independent of the live synth parameters — but the snapshot's
`reverbMix`/`reverbRoomSize` are not applied per voice: the shared effects
bus keeps the live reverb settings. -/
theorem playback_uses_stored_params :
    (∀ live sp : SynthParams,
        mergeTriggerParams live (toPartial sp) =
          { waveform := sp.waveform, attack := sp.attack, decay := sp.decay
            sustain := sp.sustain, release := sp.release
            cleanupEps := sp.cleanupEps }) ∧
    (∀ live live' sp : SynthParams,
        mergeTriggerParams live (toPartial sp) =
          mergeTriggerParams live' (toPartial sp)) ∧
    (∀ (seq : Seq) (mutes : List Bool) (recDuration : Option ℚ) (s t : ℕ)
        (ev : NoteEvent) (m : ℤ) (sp : SynthParams) (d : ℚ),
        t < 5 → mutes.getD t false = false →
        ev ∈ (seq.getD t []).getD s [] →
        ev.midi = some m → ev.synth = some sp → ev.duration = some d →
        TrigCall.withParams sp m d ∈ (tickOnce seq mutes recDuration s).1) ∧
    (∀ live : SynthParams, fxWet live = clamp01 live.reverbMix) := by
  refine ⟨fun live sp => rfl, fun live live' sp => rfl, ?_, fun live => rfl⟩
  intro seq mutes recDuration s t ev m sp d ht hmute hev hm hsp hd
  simp only [tickOnce, List.mem_flatMap]
  refine ⟨t, List.mem_range.mpr ht, ?_⟩
  rw [hmute]
  simp only [Bool.false_eq_true, if_false, slotCalls, List.mem_filterMap]
  refine ⟨ev, hev, ?_⟩
  rw [hm, hsp, hd]
  rfl

/-- Every parameter floor used in a started voice is respected: helper bounds
for the stop-time computation of `playMidiWith`. -/
theorem atLeast_ge (v : Option ℚ) (m : ℚ) : m ≤ atLeast v m := by
  cases v with
  | none => exact le_refl m
  | some x => exact le_max_left m x

/-- C6: the deferred cleanup removes the busy entry of its pitch exactly when
the registered stop time is still the one this voice scheduled — if a later
successful retrigger has overwritten it, the registry is left untouched —
and every successful retrigger of a busy pitch registers a stop time
exceeding the previous one by more than the `1e-6` comparison slack, so
overwritten entries always fall in the kept case. -/
theorem cleanup_only_clears_own_entry :
    (∀ (b : BusyMap) (m : ℤ) (stopAt v : ℚ), b m = some v →
        stopAt + 1/1000000 < v → cleanupBusy b m stopAt = b) ∧
    (∀ (b : BusyMap) (m : ℤ) (stopAt : ℚ), b m = some stopAt →
        cleanupBusy b m stopAt m = none) ∧
    (∀ (b : BusyMap) (m : ℤ) (stopAt v : ℚ), b m = some v →
        v = stopAt ∨ stopAt + 1/1000000 < v →
        (cleanupBusy b m stopAt m = none ↔ v = stopAt)) ∧
    (∀ (fx : Bool) (b : BusyMap) (now : ℚ) (p : VoiceParams) (m : ℤ)
        (d : Option ℚ) (v : ℚ), b m = some v →
        (playMidiWith fx b now p (some m) d).ok = true →
        ∃ s : ℚ, (playMidiWith fx b now p (some m) d).busy m = some s ∧
          v + 1/1000000 < s) := by
  have hkept : ∀ (b : BusyMap) (m : ℤ) (stopAt v : ℚ), b m = some v →
      stopAt + 1/1000000 < v → cleanupBusy b m stopAt = b := by
    intro b m stopAt v hb hv
    simp only [cleanupBusy, hb]
    rw [if_neg (not_le.mpr (by linarith))]
  refine ⟨hkept, ?_, ?_, ?_⟩
  · intro b m stopAt hb
    simp only [cleanupBusy, hb]
    rw [if_pos (by linarith), deleteBusy]
    simp
  · intro b m stopAt v hb hcases
    cases hcases with
    | inl heq =>
      subst heq
      simp only [cleanupBusy, hb]
      rw [if_pos (by linarith), deleteBusy]
      simp
    | inr hgt =>
      rw [hkept b m stopAt v hb hgt, hb]
      simp only [iff_false, Option.some_ne_none, false_iff]
      intro heq
      rw [heq] at hgt
      linarith
  · intro fx b now p m d v hb hok
    cases fx with
    | false => simp [playMidiWith] at hok
    | true =>
      rw [playMidiWith] at hok ⊢
      by_cases hg : busyRejects b m now
      · simp [hg] at hok
      · have hnow : v - 1/10000 ≤ now := by
          by_contra hlt
          push_neg at hlt
          have : busyRejects b m now = true := by simpa [busyRejects, hb] using hlt
          exact hg this
        simp only [hg, Bool.not_true, Bool.false_eq_true, if_false, ite_false,
          ite_true, Bool.not_false]
        refine ⟨now + atLeast (some (d.getD 0.5)) 0.01 + (envelopeOf p).release +
          max 0 p.cleanupEps, ?_, ?_⟩
        · simp [setBusy]
        · have h1 : (0.01 : ℚ) ≤ atLeast (some (d.getD 0.5)) 0.01 := atLeast_ge _ _
          have h2 : (0.02 : ℚ) ≤ (envelopeOf p).release := atLeast_ge _ _
          have h3 : (0 : ℚ) ≤ max 0 p.cleanupEps := le_max_left 0 _
          linarith

/-- The slot list stored at track `t`, slot `s` (missing indices read as
empty). -/
def slotAt (seq : Seq) (t s : ℕ) : Slot := (seq.getD t []).getD s []

/-- `getD` after an in-range `set` at the same index reads the new value. -/
theorem getD_set_self {α : Type} (l : List α) (n : ℕ) (a d : α)
    (h : n < l.length) : (l.set n a).getD n d = a := by
  rw [List.getD_eq_getElem?_getD, List.getElem?_set_eq_of_lt a h]
  rfl

/-- `getD` after a `set` at a different index is unchanged. -/
theorem getD_set_ne {α : Type} (l : List α) (n m : ℕ) (a d : α)
    (h : n ≠ m) : (l.set n a).getD m d = l.getD m d := by
  rw [List.getD_eq_getElem?_getD, List.getElem?_set_ne h,
    ← List.getD_eq_getElem?_getD]

/-- Writing a slot in range stores exactly the written list there. -/
theorem slotAt_writeSlot_self (seq : Seq) (t s : ℕ) (v : Slot)
    (ht : t < seq.length) (hs : s < (seq.getD t []).length) :
    slotAt (writeSlot seq t s v) t s = v := by
  unfold slotAt writeSlot
  rw [getD_set_self _ _ _ _ ht]
  exact getD_set_self _ _ _ _ hs

/-- Writing a slot leaves every other (track, slot) position unchanged. -/
theorem slotAt_writeSlot_ne (seq : Seq) (t s : ℕ) (v : Slot) (t' s' : ℕ)
    (h : (t', s') ≠ (t, s)) :
    slotAt (writeSlot seq t s v) t' s' = slotAt seq t' s' := by
  unfold slotAt writeSlot
  by_cases hts : t = t'
  · subst hts
    have hss : s ≠ s' := fun hss => h (by rw [hss])
    by_cases htlen : t < seq.length
    · rw [getD_set_self _ _ _ _ htlen]
      exact getD_set_ne _ _ _ _ _ hss
    · rw [List.set_eq_of_length_le (le_of_not_lt htlen)]
  · rw [getD_set_ne _ _ _ _ _ hts]

/-- Clamping to a range containing the value is the identity. -/
theorem clampInt_eq_self (v lo hi : ℤ) (h0 : lo ≤ v) (h1 : v ≤ hi) :
    clampInt v lo hi = v := by
  unfold clampInt
  rw [max_eq_right h0, min_eq_right h1]

/-- C7: a note captured while recording overwrites the slot at the selected
(track, slot) with a single event snapshotting the full live SynthParams,
leaves every other slot of the sequence unchanged, keeps the recording flag
and live synth untouched, and advances the selection to the singleton next
slot modulo 16. -/
theorem recorder_overwrite_advance (st : RecState) (m : ℤ)
    (evtDuration : Option ℚ) (s0 : ℤ) (rest : List ℤ)
    (hrec : st.recording = true)
    (hsel : st.selectedSlots = s0 :: rest)
    (hlen : st.sequence.length = 5)
    (htr : ∀ tr ∈ st.sequence, tr.length = 16)
    (ht0 : 0 ≤ st.selectedTrack) (ht4 : st.selectedTrack ≤ 4)
    (hs0 : 0 ≤ s0) (hs15 : s0 ≤ 15) :
    slotAt (onRecordedNote st (some m) evtDuration).sequence
        st.selectedTrack.toNat s0.toNat =
      [{ midi := some m
         duration := some (max 0.01 (finiteOr evtDuration
           (finiteOr st.recDuration (st.synth.duration.getD 0.25))))
         synth := some (snapshotOf st.synth) }] ∧
    (∀ t' s' : ℕ, (t', s') ≠ (st.selectedTrack.toNat, s0.toNat) →
      slotAt (onRecordedNote st (some m) evtDuration).sequence t' s' =
        slotAt st.sequence t' s') ∧
    (onRecordedNote st (some m) evtDuration).selectedSlots = [(s0 + 1) % 16] ∧
    (onRecordedNote st (some m) evtDuration).recording = true ∧
    (onRecordedNote st (some m) evtDuration).synth = st.synth := by
  have hhead : st.selectedSlots.headD 0 = s0 := by rw [hsel]; rfl
  have hT : clampInt st.selectedTrack 0 4 = st.selectedTrack :=
    clampInt_eq_self _ _ _ ht0 ht4
  have hS : clampInt s0 0 15 = s0 := clampInt_eq_self _ _ _ hs0 hs15
  have hmod : Int.tmod (s0 + 1) 16 = (s0 + 1) % 16 :=
    Int.tmod_eq_emod (by omega) (by norm_num)
  have hst : onRecordedNote st (some m) evtDuration =
      { st with
        sequence := writeSlot st.sequence st.selectedTrack.toNat s0.toNat
          [{ midi := some m
             duration := some (max 0.01 (finiteOr evtDuration
               (finiteOr st.recDuration (st.synth.duration.getD 0.25))))
             synth := some (snapshotOf st.synth) }]
        selectedSlots := [(s0 + 1) % 16] } := by
    simp only [onRecordedNote, hrec, Bool.not_true, Bool.false_eq_true,
      if_false, hhead, hT, hS, hmod, finiteOr]
  have ht5 : st.selectedTrack.toNat < st.sequence.length := by
    rw [hlen]; omega
  have htrlen : (st.sequence.getD st.selectedTrack.toNat []).length = 16 := by
    have hmem : st.sequence.getD st.selectedTrack.toNat [] ∈ st.sequence := by
      rw [List.getD_eq_getElem st.sequence [] ht5]
      exact List.getElem_mem ht5
    exact htr _ hmem
  have hs16 : s0.toNat < (st.sequence.getD st.selectedTrack.toNat []).length := by
    rw [htrlen]; omega
  refine ⟨?_, ?_, ?_, ?_, ?_⟩
  · rw [hst]
    exact slotAt_writeSlot_self _ _ _ _ ht5 hs16
  · intro t' s' hne
    rw [hst]
    exact slotAt_writeSlot_ne _ _ _ _ _ _ hne
  · rw [hst]
  · rw [hst]; exact hrec
  · rw [hst]

/-- The live `SceneCanvas` synth state used to instantiate C7. -/
def sceneSynthEx : SceneSynth :=
  { waveform := "sine", attack := 0.02, decay := 0.12, sustain := 0.8
    release := 0.02, reverbMix := 0.25, reverbRoomSize := 0.3, octave := 0
    duration := some 0.13, cleanupEps := some 0.03 }

/-- A recording-armed state: track 2 selected, slot 7 selected. -/
def recStateEx : RecState :=
  { recording := true, sequence := makeEmptySeq, selectedTrack := 2
    selectedSlots := [7], synth := sceneSynthEx, recDuration := some 0.15 }

/-- Witness for C7: capturing midi 64 in the armed example state. -/
theorem recorder_overwrite_advance_witness :
    slotAt (onRecordedNote recStateEx (some 64) none).sequence
        recStateEx.selectedTrack.toNat (7 : ℤ).toNat =
      [{ midi := some 64
         duration := some (max 0.01 (finiteOr none
           (finiteOr recStateEx.recDuration (recStateEx.synth.duration.getD 0.25))))
         synth := some (snapshotOf recStateEx.synth) }] ∧
    (∀ t' s' : ℕ, (t', s') ≠ (recStateEx.selectedTrack.toNat, (7 : ℤ).toNat) →
      slotAt (onRecordedNote recStateEx (some 64) none).sequence t' s' =
        slotAt recStateEx.sequence t' s') ∧
    (onRecordedNote recStateEx (some 64) none).selectedSlots = [((7 : ℤ) + 1) % 16] ∧
    (onRecordedNote recStateEx (some 64) none).recording = true ∧
    (onRecordedNote recStateEx (some 64) none).synth = recStateEx.synth :=
  recorder_overwrite_advance recStateEx 64 none 7 [] rfl rfl rfl
    (by simp [recStateEx, makeEmptySeq])
    (by norm_num [recStateEx]) (by norm_num [recStateEx])
    (by norm_num) (by norm_num)

/-- `writeSlot` keeps the number of tracks. -/
theorem length_writeSlot (seq : Seq) (t s : ℕ) (v : Slot) :
    (writeSlot seq t s v).length = seq.length := List.length_set _ _ _

/-- `writeSlot` at a valid track keeps every track at 16 slots. -/
theorem track_length_writeSlot (seq : Seq) (t s : ℕ) (v : Slot)
    (hl : seq.length = 5) (htr : ∀ tr ∈ seq, tr.length = 16) (ht : t < 5) :
    ∀ tr ∈ writeSlot seq t s v, tr.length = 16 := by
  intro tr htrm
  rcases List.mem_or_eq_of_mem_set htrm with hmem | heq
  · exact htr tr hmem
  · subst heq
    rw [List.length_set]
    apply htr
    rw [List.getD_eq_getElem seq [] (by omega)]
    exact List.getElem_mem _

/-- Unfolding one step of `clearTargets`. -/
theorem clearTargets_cons (base : Seq) (t : ℕ) (a : ℤ) (rest : List ℤ) :
    clearTargets base t (a :: rest) =
      clearTargets (if 0 ≤ a then writeSlot base t a.toNat [] else base) t rest := by
  simp [clearTargets]

/-- A slot already cleared at track `t` stays cleared under any further write
of an empty list into track `t`. -/
theorem slotAt_writeSlot_empty_preserve (sq : Seq) (t k s : ℕ)
    (h : slotAt sq t s = []) : slotAt (writeSlot sq t k []) t s = [] := by
  by_cases hks : k = s
  · subst hks
    by_cases ht : t < sq.length
    · by_cases hk : k < (sq.getD t []).length
      · rw [slotAt_writeSlot_self _ _ _ _ ht hk]
      · unfold slotAt writeSlot
        rw [List.set_eq_of_length_le (le_of_not_lt hk), getD_set_self _ _ _ _ ht]
        exact h
    · unfold slotAt writeSlot
      rw [List.set_eq_of_length_le (le_of_not_lt ht)]
      exact h
  · rw [slotAt_writeSlot_ne _ _ _ _ _ _ (fun hc => hks (by injection hc with h1 h2; exact h2.symm))]
    exact h

/-- A slot already cleared at track `t` stays cleared through the whole
`clearTargets` fold over track `t`. -/
theorem slotAt_clearTargets_preserve :
    ∀ (targets : List ℤ) (sq : Seq) (t s : ℕ),
      slotAt sq t s = [] → slotAt (clearTargets sq t targets) t s = [] := by
  intro targets
  induction targets with
  | nil => intro sq t s h; simpa [clearTargets] using h
  | cons a rest ih =>
    intro sq t s h
    rw [clearTargets_cons]
    apply ih
    by_cases ha : (0 : ℤ) ≤ a
    · rw [if_pos ha]
      exact slotAt_writeSlot_empty_preserve _ _ _ _ h
    · rw [if_neg ha]
      exact h

/-- On a 5×16-shaped base, `clearTargets` empties the slot of every in-range
member of the target list. -/
theorem slotAt_clearTargets_empty :
    ∀ (targets : List ℤ) (sq : Seq) (t : ℕ),
      sq.length = 5 → (∀ tr ∈ sq, tr.length = 16) → t < 5 →
      ∀ s ∈ targets, 0 ≤ s → s ≤ 15 →
        slotAt (clearTargets sq t targets) t s.toNat = [] := by
  intro targets
  induction targets with
  | nil => intro sq t _ _ _ s hs; exact absurd hs (List.not_mem_nil s)
  | cons a rest ih =>
    intro sq t hl htr ht s hs h0 h15
    rcases List.mem_cons.mp hs with rfl | hmem
    · rw [clearTargets_cons, if_pos h0]
      apply slotAt_clearTargets_preserve
      apply slotAt_writeSlot_self
      · omega
      · have hmem16 : sq.getD t [] ∈ sq := by
          rw [List.getD_eq_getElem sq [] (by omega)]
          exact List.getElem_mem _
        rw [htr _ hmem16]
        omega
    · rw [clearTargets_cons]
      by_cases ha : (0 : ℤ) ≤ a
      · rw [if_pos ha]
        exact ih _ t (by rw [length_writeSlot]; exact hl)
          (track_length_writeSlot _ _ _ _ hl htr ht) ht s hmem h0 h15
      · rw [if_neg ha]
        exact ih _ t hl htr ht s hmem h0 h15

/-- The slot at (t, s) of a raw sequence value, reading missing levels as
empty. -/
def rawSlotAt (raw : RawSeq) (t s : ℕ) : Slot :=
  slotAt ((raw.getD []).map (fun tr => tr.getD [])) t s

/-- Reading a raw slot through `toRaw` is reading the underlying slot. -/
theorem rawSlotAt_toRaw (sq : Seq) (t s : ℕ) :
    rawSlotAt (toRaw sq) t s = slotAt sq t s := by
  simp only [rawSlotAt, toRaw, Option.getD_some, List.map_map]
  have hid : ∀ l : Seq, List.map ((fun tr => Option.getD tr ([] : SeqTrack)) ∘ some) l = l := by
    intro l
    induction l with
    | nil => rfl
    | cons a as ih => simp only [List.map_cons, ih, Function.comp_apply, Option.getD_some]
  rw [hid]

/-- The clamped track index is always a valid track number. -/
theorem clampInt_toNat_lt (v : ℤ) : (clampInt v 0 4).toNat < 5 := by
  have h1 : clampInt v 0 4 ≤ 4 := min_le_left _ _
  have h2 : (0 : ℤ) ≤ clampInt v 0 4 := le_min (by norm_num) (le_max_left _ _)
  omega

/-- A demo sequence with one recorded note in track 0, slot 0. -/
def rawSeqEx : RawSeq :=
  toRaw (writeSlot makeEmptySeq 0 0
    [{ midi := some 60, duration := some 0.25, synth := none }])

/-- C8 counterexample: `deleteSelected` returns the same value (`undefined`,
modelled `none`) on the rejected path as on the accepting path — the
rejection is not signalled (and nothing is logged); only the no-op part of
the claim holds. -/
theorem deleteSelected_no_signal :
    (deleteSelected true rawSeqEx 0 [0]).2 = (deleteSelected false rawSeqEx 0 [0]).2 ∧
    (deleteSelected true rawSeqEx 0 [0]).2 = none ∧
    (deleteSelected true rawSeqEx 0 [0]).1 = rawSeqEx := ⟨rfl, rfl, rfl⟩

/-- C8 amended: while playing, `deleteSelected` is a silent no-op — the
sequence state is exactly unchanged and the call returns `undefined`, the
same value the accepting path returns (no rejection signal) — and the
clearing of the selected slots of the active track happens only when playing
is false. -/
theorem deleteSelected_playing_guard :
    (∀ (raw : RawSeq) (selTrack : ℤ) (selSlots : List ℤ),
        (deleteSelected true raw selTrack selSlots).1 = raw ∧
        (deleteSelected true raw selTrack selSlots).2 = none ∧
        (deleteSelected false raw selTrack selSlots).2 = none) ∧
    (∀ (raw : RawSeq) (selTrack : ℤ) (selSlots : List ℤ) (s : ℤ),
        s ∈ selSlots → 0 ≤ s → s ≤ 15 →
        rawSlotAt (deleteSelected false raw selTrack selSlots).1
          (clampInt selTrack 0 4).toNat s.toNat = []) := by
  constructor
  · intro raw selTrack selSlots
    exact ⟨rfl, rfl, rfl⟩
  · intro raw selTrack selSlots s hs h0 h15
    have hne : ¬selSlots.isEmpty := by
      cases selSlots with
      | nil => exact absurd hs (List.not_mem_nil s)
      | cons a rest => simp
    have hres : (deleteSelected false raw selTrack selSlots).1 =
        toRaw (clearTargets (ensureSeq raw) (clampInt selTrack 0 4).toNat selSlots) := by
      simp only [deleteSelected, Bool.false_eq_true, if_false, hne, ite_false]
    rw [hres, rawSlotAt_toRaw]
    exact slotAt_clearTargets_empty selSlots (ensureSeq raw) _
      (ensureSeq_length raw) (ensureSeq_track_length raw)
      (clampInt_toNat_lt selTrack) s hs h0 h15

/-- A parameter set with every envelope field zero. -/
def paramsZero : VoiceParams :=
  { waveform := "sine", attack := 0, decay := 0, sustain := 0, release := 0
    cleanupEps := 0.03 }

/-- C9 counterexample: `sustain` is clamped to `[0, 1]`, not floored to a
positive minimum — a successful trigger with `sustain = 0` constructs an
envelope whose sustain is exactly 0, contradicting the claim that no
constructed envelope has a zero-valued sustain. -/
theorem envelope_zero_sustain :
    (envelopeOf paramsZero).sustain = 0 ∧
    (playMidiWith true emptyBusy 0 paramsZero (some 60) (some 0.25)).ok = true ∧
    (playMidiWith true emptyBusy 0 paramsZero (some 60) (some 0.25)).voice =
      some { midi := 60, waveform := "sine", env := envelopeOf paramsZero
             startAt := 0, attackAt := 0, releaseAt := 0.25, stopAt := 0.3
             gainZeroAt := 0.312, gainFinal := 0, oscStopAt := 0.322
             disposeAt := 0.382 } := by
  refine ⟨?_, ?_, ?_⟩ <;>
    norm_num [playMidiWith, busyRejects, emptyBusy, envelopeOf, atLeast, clamp01,
      paramsZero]

/-- C9 amended: attack, decay and release are each floored to a small
positive minimum (0.001, 0.01, 0.02 s), so they are never zero in a
constructed envelope; sustain however is only clamped into `[0, 1]` and may
be exactly zero. -/
theorem envelope_params_floored :
    ∀ p : VoiceParams,
      0.001 ≤ (envelopeOf p).attack ∧ 0.01 ≤ (envelopeOf p).decay ∧
      0.02 ≤ (envelopeOf p).release ∧ 0 < (envelopeOf p).attack ∧
      0 < (envelopeOf p).decay ∧ 0 < (envelopeOf p).release ∧
      0 ≤ (envelopeOf p).sustain ∧ (envelopeOf p).sustain ≤ 1 := by
  intro p
  unfold envelopeOf atLeast clamp01
  refine ⟨le_max_left _ _, le_max_left _ _, le_max_left _ _, ?_, ?_, ?_, ?_, ?_⟩
  · exact lt_of_lt_of_le (by norm_num) (le_max_left _ _)
  · exact lt_of_lt_of_le (by norm_num) (le_max_left _ _)
  · exact lt_of_lt_of_le (by norm_num) (le_max_left _ _)
  · exact le_max_left _ _
  · exact max_le (by norm_num) (min_le_left _ _)

/-- The pitch argument `triggerNote` passes to `playMidi` for a string name
(`typeof noteOrMidi === 'string' ? noteToMidi(noteOrMidi) : noteOrMidi`):
a failed parse is a `null` pitch.  The `nanv` outcome (a flat or `E#`/`B#`
spelling) produces an IEEE `NaN` pitch in the source, which is outside this
rational model, hence the outer `Option`. -/
def midiArgOf : MidiResult → Option (Option ℤ)
  | .nullv => some none
  | .num n => some (some n)
  | .nanv => none

/-- C10: every `playMidiWith` call that returns false — a `null` pitch (for
example a note-name string the parser rejects), a missing effects chain, or
a busy-guard rejection — creates no voice nodes and leaves the busy registry
exactly unchanged: rejection is atomic. -/
theorem rejection_is_atomic :
    (∀ (fx : Bool) (b : BusyMap) (now : ℚ) (p : VoiceParams) (midi : Option ℤ)
        (d : Option ℚ), (playMidiWith fx b now p midi d).ok = false →
        (playMidiWith fx b now p midi d).voice = none ∧
        (playMidiWith fx b now p midi d).busy = b) ∧
    (∀ (s : String), noteToMidi s = MidiResult.nullv →
        midiArgOf (noteToMidi s) = some none ∧
        (∀ (fx : Bool) (b : BusyMap) (now : ℚ) (p : VoiceParams) (d : Option ℚ),
          playMidiWith fx b now p none d =
            { ok := false, voice := none, busy := b })) := by
  constructor
  · intro fx b now p midi d hok
    cases midi with
    | none => exact ⟨rfl, rfl⟩
    | some m =>
      cases fx with
      | false => exact ⟨rfl, rfl⟩
      | true =>
        by_cases hg : busyRejects b m now
        · simp [playMidiWith, hg]
        · simp [playMidiWith, hg] at hok
  · intro s hns
    rw [hns]
    exact ⟨rfl, fun fx b now p d => rfl⟩

end VRBeat
